import Mathlib

/-!
Verification development for `mcdns_updater.py`, a one-shot utility that
probes a set of Minecraft backend nodes, scores them by bandwidth and
latency, and reconciles Cloudflare SRV records.

The Python source is shallowly embedded below: pure helpers become Lean
functions; network effects (the latency probe and the Cloudflare API) are
modelled by an explicit probe environment and an explicit DNS state plus an
operation log; Python exceptions become `Except` errors or the `error`
field of the final `RunResult`.  Rational numbers stand in for Python
floats (the claims only involve values that floats represent exactly), and
`Int` stands in for Python's unbounded integers.
-/

deriving instance DecidableEq for Except

namespace McdnsUpdater

/-- A configured backend candidate (class `Node` in the source). -/
structure Node where
  subdomain : String
  host : String
  port : Int := 25565
  bandwidth : Int
deriving DecidableEq

/-- The configuration file contents (class `Config` in the source). -/
structure Config where
  api_token : String
  zone_id : String
  subdomain : String
  nodes : List Node
  timeout : ℚ := 5
deriving DecidableEq

/-- `Node.check_host`: the pydantic field validator for `host`.  The source
calls `ipaddress.ip_address(val)` (an external library, abstracted here as
the boolean test `isIP`); a successful parse trips the assertion, a
`ValueError` lets the value through. -/
def check_host (isIP : String → Bool) (val : String) : Except String String :=
  if isIP val then .error ("IP address is not allowed for SRV record.") else .ok val

/-- Validation performed when a single `Node` is constructed: its `host`
field validator runs. -/
def validate_node (isIP : String → Bool) (n : Node) : Except String Node :=
  match check_host isIP n.host with
  | .error e => .error e
  | .ok _ => .ok n

/-- Pydantic constructs every node of the list in order; the first failing
field validator aborts the whole parse. -/
def validate_nodes (isIP : String → Bool) : List Node → Except String (List Node)
  | [] => .ok []
  | n :: rest =>
    match validate_node isIP n with
    | .error e => .error e
    | .ok v =>
      match validate_nodes isIP rest with
      | .error e => .error e
      | .ok vs => .ok (v :: vs)

/-- `Config.check_nodes`: asserts that no two nodes share a subdomain
(the source compares `len(set(subdomains))` with `len(subdomains)`). -/
def check_nodes (val : List Node) : Except String (List Node) :=
  if (val.map Node.subdomain).Nodup then .ok val
  else .error ("conflict subdomains found.")

/-- Whole-configuration validation as pydantic runs it: each node's field
validators, then the `nodes` list validator. -/
def validate_config (isIP : String → Bool) (cfg : Config) : Except String Config :=
  match validate_nodes isIP cfg.nodes with
  | .error e => .error e
  | .ok _ =>
    match check_nodes cfg.nodes with
    | .error e => .error e
    | .ok _ => .ok cfg

/-- Python's `str.removesuffix(".")`: drops one trailing dot if present. -/
def removeSuffixDot (s : String) : String :=
  if s.data.getLast? = some '.' then String.mk s.data.dropLast else s

/-- `concat_domain(*parts)`: strip a trailing dot from each part, then join
with ".". -/
def concat_domain (parts : List String) : String :=
  String.intercalate "." (parts.map removeSuffixDot)

/-- Outcome of `JavaServer(...).ping()`: a latency, or a raised exception
carrying a message. -/
inductive ProbeResult where
  | ok (lat : ℚ)
  | fail (msg : String)
deriving DecidableEq

/-- `check_preference(node, timeout)` with the probe outcome made explicit.
Returns the score together with the lines printed to stderr, or an error
when the uncaught `ZeroDivisionError` fires: the `try` block covers only
`server.ping()`, so a zero latency makes the final division raise. -/
def check_preference (node : Node) (outcome : ProbeResult) :
    Except String (ℚ × List String) :=
  match outcome with
  | .fail msg => .ok (0, ["ping failed: " ++ msg])
  | .ok lat =>
    if lat = 0 then .error ("ZeroDivisionError: float division by zero")
    else .ok ((node.bandwidth ^ 2 : ℚ) / lat, [])

/-- The SRV payload `srv_record_param.Data(...)`. -/
structure SrvData where
  target : String
  port : Int
  priority : Int
  weight : Int
deriving DecidableEq

/-- One DNS record held by the provider. -/
structure DnsRecord where
  id : Nat
  name : String
  rtype : String
  data : SrvData
deriving DecidableEq

/-- The provider's remote state: the zone's canonical name, its records,
and a counter supplying fresh record ids for creates. -/
structure DnsState where
  zoneName : String
  records : List DnsRecord
  nextId : Nat
deriving DecidableEq

/-- Every API call `update_record` can issue, for the operation log. -/
inductive DnsOp where
  | getZone (zone_id : String)
  | listRecords (zone_id name rtype : String)
  | createRecord (zone_id name rtype : String) (data : SrvData)
  | updateRecord (zone_id : String) (id : Nat) (name rtype : String) (data : SrvData)
deriving DecidableEq

/-- Does a record match the listing filter `name=exact fqdn, type=SRV`? -/
def matchesSrv (fqdn : String) (r : DnsRecord) : Bool :=
  r.name == fqdn && r.rtype == "SRV"

/-- The provider's listing with `per_page=1`: the first record matching the
exact-name and type filter, if any. -/
def firstMatch (fqdn : String) : List DnsRecord → Option DnsRecord
  | [] => none
  | r :: rest => if matchesSrv fqdn r then some r else firstMatch fqdn rest

/-- The provider's `records.update(dns_record_id=rid, name=fqdn, data=d,
type="SRV")`: overwrite the fields of every record with that id. -/
def applyUpdate (l : List DnsRecord) (rid : Nat) (fqdn : String) (d : SrvData) :
    List DnsRecord :=
  l.map fun q => if q.id = rid then { q with name := fqdn, rtype := "SRV", data := d } else q

/-- `update_record(cloudflare, zone_id, subdomain, host, port)`: zone
lookup, exact-name SRV listing, then update-or-create with the fixed
priority-0 weight-0 payload.  Returns the new remote state and the API
calls issued. -/
def update_record (s : DnsState) (zone_id subdomain host : String) (port : Int) :
    DnsState × List DnsOp :=
  let fqdn := concat_domain ["_minecraft._tcp", subdomain, s.zoneName]
  let d : SrvData := ⟨host, port, 0, 0⟩
  match firstMatch fqdn s.records with
  | some r =>
    ({ s with records := applyUpdate s.records r.id fqdn d },
     [.getZone zone_id, .listRecords zone_id fqdn ("SRV"),
      .updateRecord zone_id r.id fqdn ("SRV") d])
  | none =>
    ({ s with
        records := s.records ++ [⟨s.nextId, fqdn, "SRV", d⟩],
        nextId := s.nextId + 1 },
     [.getZone zone_id, .listRecords zone_id fqdn ("SRV"),
      .createRecord zone_id fqdn ("SRV") d])

/-- One `max`-with-key step of Python's `max(prefs, key=lambda val: val[1])`:
the accumulator is replaced only on a strictly larger key, so the first
maximal element wins. -/
def pystep {α : Type} (acc y : α × ℚ) : α × ℚ :=
  if acc.2 < y.2 then y else acc

/-- Python's `max(l, key=lambda val: val[1])`: `none` models the
`ValueError` raised on an empty sequence. -/
def pymax {α : Type} : List (α × ℚ) → Option (α × ℚ)
  | [] => none
  | x :: xs => some (xs.foldl pystep x)

/-- The scoring loop of `main`: score every node in order, collecting
stderr output; an uncaught exception from `check_preference` aborts. -/
def compute_prefs (probe : String → Int → ℚ → ProbeResult) (timeout : ℚ) :
    List Node → List String × Except String (List (Node × ℚ))
  | [] => ([], .ok [])
  | n :: rest =>
    match check_preference n (probe n.host n.port timeout) with
    | .error e => ([], .error e)
    | .ok (score, log) =>
      let tail := compute_prefs probe timeout rest
      (log ++ tail.1, tail.2.map fun ps => (n, score) :: ps)

/-- The observable outcome of one run: final remote DNS state, the API
calls issued, the stderr lines, and the uncaught exception if any
(`none` is a clean exit). -/
structure RunResult where
  state : DnsState
  ops : List DnsOp
  stderr : List String
  error : Option String
deriving DecidableEq

/-- `main()` after configuration loading: probe and score every node,
select with `max`, bail out cleanly when the best score is 0, otherwise
reconcile each per-node alias and finally the winner alias. -/
def run_main (cfg : Config) (probe : String → Int → ℚ → ProbeResult)
    (s : DnsState) : RunResult :=
  let pr := compute_prefs probe cfg.timeout cfg.nodes
  match pr.2 with
  | .error e => ⟨s, [], pr.1, some e⟩
  | .ok prefs =>
    match pymax prefs with
    | none => ⟨s, [], pr.1, some ("ValueError: max() arg is an empty sequence")⟩
    | some sp =>
      if sp.2 = 0 then ⟨s, [], pr.1 ++ ["no node available."], none⟩
      else
        let step := fun (acc : DnsState × List DnsOp) (n : Node) =>
          let r := update_record acc.1 cfg.zone_id
            (concat_domain [n.subdomain, cfg.subdomain]) n.host n.port
          (r.1, acc.2 ++ r.2)
        let aliases := cfg.nodes.foldl step (s, [])
        let fin := update_record aliases.1 cfg.zone_id cfg.subdomain
          sp.1.host sp.1.port
        ⟨fin.1, aliases.2 ++ fin.2, pr.1, none⟩

/-- `main()` including configuration validation: a validation failure
aborts before any probe or DNS call. -/
def run_full (isIP : String → Bool) (cfg : Config)
    (probe : String → Int → ℚ → ProbeResult) (s : DnsState) : RunResult :=
  match validate_config isIP cfg with
  | .error e => ⟨s, [], [], some e⟩
  | .ok cfg2 => run_main cfg2 probe s

/-! Concrete fixtures used by witnesses: the two nodes of the spec's worked
scenario, a configuration holding them, an empty remote zone, and probe
environments. -/

def nodeA : Node := ⟨"a", "a.example.com", 25565, 10⟩

def nodeB : Node := ⟨"b", "b.example.com", 25565, 5⟩

def cfg0 : Config := ⟨"token", "zone0", "play", [nodeA, nodeB], 5⟩

def cfgEmpty : Config := ⟨"token", "zone0", "play", [], 5⟩

def st0 : DnsState := ⟨"example.com", [], 0⟩

def probeFail : String → Int → ℚ → ProbeResult := fun _ _ _ => .fail ("timed out")

def probeAB : String → Int → ℚ → ProbeResult :=
  fun h _ _ => if h == "a.example.com" then .ok 2 else .ok 1

/-- C10: with an empty node list the run does not take the clean
"no node available" exit: `max` over the empty preference list raises
`ValueError` and the run ends in error, with zero DNS operations. -/
theorem c10_empty_nodes_value_error (cfg : Config)
    (probe : String → Int → ℚ → ProbeResult) (s : DnsState)
    (h : cfg.nodes = []) :
    run_main cfg probe s =
      ⟨s, [], [], some ("ValueError: max() arg is an empty sequence")⟩ := by
  simp [run_main, h, compute_prefs, pymax]

/-- C10 witness: the error exit evaluated on a concrete empty configuration. -/
theorem c10_empty_nodes_value_error_witness :
    run_main cfgEmpty probeFail st0 =
      ⟨st0, [], [], some ("ValueError: max() arg is an empty sequence")⟩ :=
  c10_empty_nodes_value_error cfgEmpty probeFail st0 rfl

/-- C7: a probe failure is caught: the node scores 0, the exception is
reported on stderr, and the scoring loop continues with the remaining
nodes. -/
theorem c7_probe_failure_scores_zero (n : Node) (msg : String)
    (rest : List Node) (timeout : ℚ) (probe : String → Int → ℚ → ProbeResult)
    (hp : probe n.host n.port timeout = .fail msg) :
    check_preference n (probe n.host n.port timeout) =
      .ok (0, ["ping failed: " ++ msg]) ∧
    compute_prefs probe timeout (n :: rest) =
      (("ping failed: " ++ msg) :: (compute_prefs probe timeout rest).1,
       (compute_prefs probe timeout rest).2.map fun ps => (n, 0) :: ps) := by
  constructor
  · rw [hp]; rfl
  · simp [compute_prefs, hp, check_preference]

/-- C7 witness: concrete failing probe for node "a" with node "b" still
scored afterwards. -/
theorem c7_probe_failure_scores_zero_witness :
    check_preference nodeA (probeFail nodeA.host nodeA.port 5) =
      .ok (0, ["ping failed: " ++ "timed out"]) ∧
    compute_prefs probeFail 5 [nodeA, nodeB] =
      (("ping failed: " ++ "timed out") :: (compute_prefs probeFail 5 [nodeB]).1,
       (compute_prefs probeFail 5 [nodeB]).2.map fun ps => (nodeA, 0) :: ps) :=
  c7_probe_failure_scores_zero nodeA ("timed out") [nodeB] 5 probeFail rfl

/-- C5: a successful probe with positive latency scores exactly
bandwidth squared over latency; in the spec's scenario the scores are 50
and 25 and the first node wins the selection. -/
theorem c5_score_formula :
    (∀ (n : Node) (lat : ℚ), 0 < lat →
      check_preference n (.ok lat) = .ok ((n.bandwidth ^ 2 : ℚ) / lat, [])) ∧
    check_preference nodeA (.ok 2) = .ok (50, []) ∧
    check_preference nodeB (.ok 1) = .ok (25, []) ∧
    (compute_prefs probeAB 5 [nodeA, nodeB]).2 = .ok [(nodeA, 50), (nodeB, 25)] ∧
    pymax [(nodeA, (50 : ℚ)), (nodeB, 25)] = some (nodeA, 50) := by
  refine ⟨?_, by simp [check_preference, nodeA]; norm_num,
    by simp [check_preference, nodeB]; norm_num,
    by simp [compute_prefs, probeAB, check_preference, nodeA, nodeB, Except.map]; norm_num,
    by simp [pymax, pystep]; norm_num⟩
  intro n lat hlat
  simp [check_preference, ne_of_gt hlat]

/-- C5 witness: the general formula applied to node "a" at latency 2. -/
theorem c5_score_formula_witness :
    check_preference nodeA (.ok 2) = .ok ((nodeA.bandwidth ^ 2 : ℚ) / 2, []) :=
  c5_score_formula.1 nodeA 2 (by norm_num)

/-- C6 counterexample: a probe outcome of latency exactly 0 does not fail
closed to score 0: the division sits outside the `try` block, so the code
raises `ZeroDivisionError` instead of returning a score. -/
theorem c6_zero_latency_cex :
    check_preference nodeA (.ok 0) =
      .error ("ZeroDivisionError: float division by zero") := by
  simp [check_preference]

/-- C6 amended: on probe failure the score is 0, on a strictly positive
latency the score is the non-negative value bandwidth squared over
latency, and neither case raises; a zero-latency outcome instead raises
an uncaught `ZeroDivisionError`. -/
theorem c6_amended_fail_closed (n : Node) (outcome : ProbeResult) :
    (∀ msg, outcome = .fail msg →
      check_preference n outcome = .ok (0, ["ping failed: " ++ msg])) ∧
    (∀ lat, outcome = .ok lat → 0 < lat →
      check_preference n outcome = .ok ((n.bandwidth ^ 2 : ℚ) / lat, []) ∧
        0 ≤ (n.bandwidth ^ 2 : ℚ) / lat) ∧
    (outcome = .ok 0 →
      check_preference n outcome =
        .error ("ZeroDivisionError: float division by zero")) := by
  refine ⟨?_, ?_, ?_⟩
  · intro msg h; subst h; rfl
  · intro lat h hlat; subst h
    exact ⟨by simp [check_preference, ne_of_gt hlat],
      div_nonneg (sq_nonneg _) (le_of_lt hlat)⟩
  · intro h; subst h; rfl

/-- C6 witness: the amended statement applied to node "b" at latency 1. -/
theorem c6_amended_fail_closed_witness :
    check_preference nodeB (.ok 1) = .ok ((nodeB.bandwidth ^ 2 : ℚ) / 1, []) ∧
      0 ≤ (nodeB.bandwidth ^ 2 : ℚ) / 1 :=
  (c6_amended_fail_closed nodeB (.ok 1)).2.1 1 rfl (by norm_num)

/-- C8 counterexample: `removesuffix` strips at most one trailing dot, so a
component ending in two dots does produce a doubled separator. -/
theorem c8_double_dot_cex :
    concat_domain ["a..", "b"] = "a..b" ∧
    List.IsInfix ['.', '.'] (concat_domain ["a..", "b"]).data := by
  exact ⟨rfl, by decide⟩

/-- C8 amended: each component has at most one trailing dot stripped before
joining, so appending a single trailing dot to any component never changes
the result; in particular the spec's concrete instance holds, while a
component with two trailing dots keeps one of them. -/
theorem c8_amended_single_strip :
    (∀ s : String, removeSuffixDot (s ++ ".") = s) ∧
    concat_domain ["a.", "b", "c."] = concat_domain ["a", "b", "c"] ∧
    concat_domain ["a", "b", "c"] = "a.b.c" ∧
    removeSuffixDot ("a..") = "a." := by
  refine ⟨?_, rfl, rfl, rfl⟩
  intro s
  cases s with
  | mk l =>
    have hdata : ((String.mk l ++ ".").data) = l ++ ['.'] := rfl
    simp [removeSuffixDot, hdata, List.getLast?_concat, List.dropLast_concat]

/-- The running maximum of the `max`-with-key fold is one of the elements
seen so far. -/
theorem foldl_pystep_mem {α : Type} (xs : List (α × ℚ)) (x : α × ℚ) :
    xs.foldl pystep x ∈ x :: xs := by
  induction xs generalizing x with
  | nil => simp
  | cons y ys ih =>
    rw [List.foldl_cons]
    rcases List.mem_cons.mp (ih (pystep x y)) with h1 | h1
    · rw [h1]
      unfold pystep
      split
      · simp
      · simp
    · simp [List.mem_cons_of_mem, h1]

theorem pystep_left_le {α : Type} (x y : α × ℚ) : x.2 ≤ (pystep x y).2 := by
  unfold pystep
  split
  · exact le_of_lt (by assumption)
  · exact le_refl _

theorem pystep_right_le {α : Type} (x y : α × ℚ) : y.2 ≤ (pystep x y).2 := by
  unfold pystep
  split
  · exact le_refl _
  · exact le_of_not_lt (by assumption)

/-- Every element scanned so far has key at most the running maximum's. -/
theorem foldl_pystep_le {α : Type} (xs : List (α × ℚ)) (x : α × ℚ) :
    ∀ q ∈ x :: xs, q.2 ≤ (xs.foldl pystep x).2 := by
  induction xs generalizing x with
  | nil =>
    intro q hq
    simp only [List.mem_singleton] at hq
    subst hq
    exact le_refl _
  | cons y ys ih =>
    intro q hq
    rw [List.foldl_cons]
    rcases List.mem_cons.mp hq with h | h
    · subst h
      exact le_trans (pystep_left_le q y) (ih (pystep q y) _ (List.mem_cons_self _ _))
    · rcases List.mem_cons.mp h with h2 | h2
      · subst h2
        exact le_trans (pystep_right_le x q) (ih (pystep x q) _ (List.mem_cons_self _ _))
      · exact ih (pystep x y) q (List.mem_cons_of_mem _ h2)

/-- The running maximum sits at the first position achieving the maximal
key: everything strictly before it has a strictly smaller key. -/
theorem foldl_pystep_first {α : Type} (xs : List (α × ℚ)) (x : α × ℚ) :
    ∃ l1 l2, x :: xs = l1 ++ (xs.foldl pystep x) :: l2 ∧
      ∀ q ∈ l1, q.2 < (xs.foldl pystep x).2 := by
  induction xs generalizing x with
  | nil => exact ⟨[], [], rfl, by simp⟩
  | cons y ys ih =>
    rw [List.foldl_cons]
    by_cases hxy : x.2 < y.2
    · have hy : pystep x y = y := by unfold pystep; rw [if_pos hxy]
      rw [hy]
      obtain ⟨l1, l2, hdec, hlt⟩ := ih y
      refine ⟨x :: l1, l2, ?_, ?_⟩
      · rw [List.cons_append, ← hdec]
      · intro q hq
        rcases List.mem_cons.mp hq with h | h
        · subst h
          exact lt_of_lt_of_le hxy (foldl_pystep_le ys y y (List.mem_cons_self _ _))
        · exact hlt q h
    · have hx : pystep x y = x := by unfold pystep; rw [if_neg hxy]
      rw [hx]
      obtain ⟨l1, l2, hdec, hlt⟩ := ih x
      cases l1 with
      | nil =>
        rw [List.nil_append] at hdec
        have hx0 : x = ys.foldl pystep x := (List.cons.injEq _ _ _ _).mp hdec |>.1
        exact ⟨[], y :: ys, by rw [List.nil_append, ← hx0], by simp⟩
      | cons a l1t =>
        rw [List.cons_append] at hdec
        obtain ⟨ha, hys⟩ := (List.cons.injEq _ _ _ _).mp hdec
        refine ⟨x :: y :: l1t, l2, ?_, ?_⟩
        · rw [List.cons_append, List.cons_append, ← hys]
        · intro q hq
          rcases List.mem_cons.mp hq with h | h
          · subst h
            exact hlt q (ha ▸ List.mem_cons_self _ _)
          · rcases List.mem_cons.mp h with h2 | h2
            · subst h2
              exact lt_of_le_of_lt (le_of_not_lt hxy)
                (hlt x (ha ▸ List.mem_cons_self _ _))
            · exact hlt q (List.mem_cons_of_mem _ h2)

/-- C4: on a non-empty score list with a positive score, `max` returns an
element of maximal score, and among equal maximal scores the earliest one
in input order, with no randomness: the result is a function of the list. -/
theorem c4_pymax_first_maximal (l : List (Node × ℚ)) (hne : l ≠ [])
    (hpos : ∃ q ∈ l, 0 < q.2) :
    ∃ p, pymax l = some p ∧ (∀ q ∈ l, q.2 ≤ p.2) ∧
      ∃ l1 l2, l = l1 ++ p :: l2 ∧ ∀ q ∈ l1, q.2 < p.2 := by
  cases l with
  | nil => exact absurd rfl hne
  | cons x xs =>
    exact ⟨xs.foldl pystep x, rfl, foldl_pystep_le xs x, foldl_pystep_first xs x⟩

/-- C4 witness: the selection property evaluated on the concrete scored
list of the spec's scenario. -/
theorem c4_pymax_first_maximal_witness :
    ∃ p, pymax [(nodeA, (50 : ℚ)), (nodeB, 25)] = some p ∧
      (∀ q ∈ [(nodeA, (50 : ℚ)), (nodeB, 25)], q.2 ≤ p.2) ∧
      ∃ l1 l2, [(nodeA, (50 : ℚ)), (nodeB, 25)] = l1 ++ p :: l2 ∧
        ∀ q ∈ l1, q.2 < p.2 :=
  c4_pymax_first_maximal _ (by simp) ⟨(nodeA, 50), by simp, by norm_num⟩

/-- When every probe scores 0, the scoring loop succeeds and pairs every
node with score 0. -/
theorem compute_prefs_all_zero (probe : String → Int → ℚ → ProbeResult) (t : ℚ) :
    ∀ nodes : List Node,
      (∀ n ∈ nodes, ∃ log, check_preference n (probe n.host n.port t) = .ok (0, log)) →
      ∃ plog, compute_prefs probe t nodes = (plog, .ok (nodes.map fun n => (n, (0 : ℚ))))
  | [], _ => ⟨[], rfl⟩
  | n :: rest, h => by
    obtain ⟨log, hcp⟩ := h n (List.mem_cons_self _ _)
    obtain ⟨plog2, hrest⟩ := compute_prefs_all_zero probe t rest
      (fun m hm => h m (List.mem_cons_of_mem _ hm))
    exact ⟨log ++ plog2, by simp [compute_prefs, hcp, hrest, Except.map]⟩

/-- C1: with a non-empty node list where every probe scores 0, the run
issues no DNS operation at all, leaves the remote state untouched, prints
"no node available." to stderr, and exits cleanly. -/
theorem c1_all_zero_no_dns (cfg : Config) (probe : String → Int → ℚ → ProbeResult)
    (s : DnsState) (hne : cfg.nodes ≠ [])
    (hz : ∀ n ∈ cfg.nodes, ∃ log,
      check_preference n (probe n.host n.port cfg.timeout) = .ok (0, log)) :
    (run_main cfg probe s).ops = [] ∧ (run_main cfg probe s).error = none ∧
    (run_main cfg probe s).state = s ∧
    "no node available." ∈ (run_main cfg probe s).stderr := by
  obtain ⟨plog, hcp⟩ := compute_prefs_all_zero probe cfg.timeout cfg.nodes hz
  rcases hnodes : cfg.nodes with _ | ⟨n0, rest⟩
  · exact absurd hnodes hne
  · rw [hnodes] at hcp
    have hzero : ((rest.map fun n => (n, (0 : ℚ))).foldl pystep (n0, 0)).2 = 0 := by
      rcases List.mem_cons.mp
          (foldl_pystep_mem (rest.map fun n => (n, (0 : ℚ))) (n0, 0)) with h | h
      · rw [h]
      · simp only [List.mem_map] at h
        obtain ⟨a, _, ha⟩ := h
        rw [← ha]
    simp [run_main, hnodes, hcp, pymax, hzero]

/-- C1 witness: the fail-safe evaluated on the concrete two-node
configuration with every probe timing out. -/
theorem c1_all_zero_no_dns_witness :
    (run_main cfg0 probeFail st0).ops = [] ∧
    (run_main cfg0 probeFail st0).error = none ∧
    (run_main cfg0 probeFail st0).state = st0 ∧
    "no node available." ∈ (run_main cfg0 probeFail st0).stderr :=
  c1_all_zero_no_dns cfg0 probeFail st0 (by simp [cfg0]) (fun n _ => ⟨_, rfl⟩)

/-- C2 counterexample: with both probes failing (maximum score 0) the run
issues no DNS operation whatsoever, so the per-node alias records are not
reconciled either, contradicting the claim that they still are. -/
theorem c2_aliases_not_reconciled_cex :
    (run_main cfg0 probeFail st0).ops = [] ∧
    (run_main cfg0 probeFail st0).state = st0 := by
  simp [run_main, compute_prefs, check_preference, probeFail, cfg0, nodeA,
    nodeB, pymax, pystep, Except.map]

/-- C2 amended: when the maximum score is exactly 0 the run reports
"no node available." and skips the whole DNS-mutation phase, the per-node
alias records included, exiting cleanly. -/
theorem c2_amended_skip_all (cfg : Config) (probe : String → Int → ℚ → ProbeResult)
    (s : DnsState) (prefs : List (Node × ℚ)) (sp : Node × ℚ)
    (hcp : (compute_prefs probe cfg.timeout cfg.nodes).2 = .ok prefs)
    (hsel : pymax prefs = some sp) (hzero : sp.2 = 0) :
    (run_main cfg probe s).ops = [] ∧ (run_main cfg probe s).error = none ∧
    (run_main cfg probe s).state = s ∧
    "no node available." ∈ (run_main cfg probe s).stderr := by
  simp [run_main, hcp, hsel, hzero]

/-- C2 witness for the amended claim: the concrete all-fail run. -/
theorem c2_amended_skip_all_witness :
    (run_main cfg0 probeFail st0).ops = [] ∧
    (run_main cfg0 probeFail st0).error = none ∧
    (run_main cfg0 probeFail st0).state = st0 ∧
    "no node available." ∈ (run_main cfg0 probeFail st0).stderr :=
  c2_amended_skip_all cfg0 probeFail st0 [(nodeA, 0), (nodeB, 0)] (nodeA, 0)
    (by simp [compute_prefs, check_preference, probeFail, cfg0, Except.map])
    (by simp [pymax, pystep]) rfl

/-- Remote-state invariant: the fresh-id counter is above every stored
record's id (as the provider guarantees for its record identifiers). -/
def DnsState.WF (s : DnsState) : Prop := ∀ r ∈ s.records, r.id < s.nextId

theorem firstMatch_append_none (fqdn : String) (l : List DnsRecord) (a : DnsRecord)
    (h : firstMatch fqdn l = none) :
    firstMatch fqdn (l ++ [a]) = if matchesSrv fqdn a then some a else none := by
  induction l with
  | nil => rfl
  | cons r rest ih =>
    by_cases hm : matchesSrv fqdn r = true
    · rw [firstMatch, if_pos hm] at h
      cases h
    · rw [firstMatch, if_neg hm] at h
      rw [List.cons_append, firstMatch, if_neg hm]
      exact ih h

theorem matchesSrv_updated (fqdn : String) (q : DnsRecord) (d : SrvData) :
    matchesSrv fqdn { q with name := fqdn, rtype := "SRV", data := d } = true := by
  simp [matchesSrv]

/-- Updating the first listed match in place leaves a first listed match
with the same record identity. -/
theorem firstMatch_applyUpdate (fqdn : String) (d : SrvData) :
    ∀ (l : List DnsRecord) (r : DnsRecord), firstMatch fqdn l = some r →
      ∃ r2, firstMatch fqdn (applyUpdate l r.id fqdn d) = some r2 ∧ r2.id = r.id := by
  intro l
  induction l with
  | nil => intro r h; cases h
  | cons q rest ih =>
    intro r h
    by_cases hm : matchesSrv fqdn q = true
    · rw [firstMatch, if_pos hm] at h
      have hq : q = r := by injection h
      subst hq
      refine ⟨{ q with name := fqdn, rtype := "SRV", data := d }, ?_, rfl⟩
      simp [applyUpdate, firstMatch, matchesSrv_updated]
    · rw [firstMatch, if_neg hm] at h
      by_cases hid : q.id = r.id
      · refine ⟨{ q with name := fqdn, rtype := "SRV", data := d }, ?_, hid⟩
        simp [applyUpdate, firstMatch, hid, matchesSrv_updated]
      · obtain ⟨r2, hr2, hrid⟩ := ih r h
        refine ⟨r2, ?_, hrid⟩
        simpa [applyUpdate, firstMatch, hid, hm] using hr2

/-- Overwriting the same record with the same payload twice equals doing
it once. -/
theorem applyUpdate_idem (l : List DnsRecord) (rid : Nat) (fqdn : String)
    (d : SrvData) :
    applyUpdate (applyUpdate l rid fqdn d) rid fqdn d = applyUpdate l rid fqdn d := by
  induction l with
  | nil => rfl
  | cons q rest ih =>
    by_cases hid : q.id = rid
    · simp only [applyUpdate, List.map_cons, if_pos hid] at ih ⊢
      rw [ih]
    · simp only [applyUpdate, List.map_cons, if_neg hid] at ih ⊢
      rw [ih]

/-- An update aimed at an id no stored record carries leaves the record
set unchanged. -/
theorem applyUpdate_fresh (l : List DnsRecord) (rid : Nat) (fqdn : String)
    (d : SrvData) (h : ∀ q ∈ l, q.id ≠ rid) : applyUpdate l rid fqdn d = l := by
  induction l with
  | nil => rfl
  | cons q rest ih =>
    have h1 : q.id ≠ rid := h q (List.mem_cons_self _ _)
    have h2 := ih (fun p hp => h p (List.mem_cons_of_mem _ hp))
    simp only [applyUpdate, List.map_cons, if_neg h1] at h2 ⊢
    rw [h2]

/-- Unfolding `update_record` when the listing finds a record. -/
theorem update_record_found (s : DnsState) (zid sub host : String) (port : Int)
    (r : DnsRecord)
    (h : firstMatch (concat_domain ["_minecraft._tcp", sub, s.zoneName])
      s.records = some r) :
    update_record s zid sub host port =
      ({ s with
          records :=
            applyUpdate s.records r.id
              (concat_domain ["_minecraft._tcp", sub, s.zoneName])
              ⟨host, port, 0, 0⟩ },
       [DnsOp.getZone zid,
        DnsOp.listRecords zid (concat_domain ["_minecraft._tcp", sub, s.zoneName])
          ("SRV"),
        DnsOp.updateRecord zid r.id
          (concat_domain ["_minecraft._tcp", sub, s.zoneName]) ("SRV")
          ⟨host, port, 0, 0⟩]) := by
  simp only [update_record, h]

/-- Unfolding `update_record` when the listing comes back empty. -/
theorem update_record_missing (s : DnsState) (zid sub host : String) (port : Int)
    (h : firstMatch (concat_domain ["_minecraft._tcp", sub, s.zoneName])
      s.records = none) :
    update_record s zid sub host port =
      ({ s with
          records := s.records ++
            [⟨s.nextId, concat_domain ["_minecraft._tcp", sub, s.zoneName], "SRV",
              ⟨host, port, 0, 0⟩⟩],
          nextId := s.nextId + 1 },
       [DnsOp.getZone zid,
        DnsOp.listRecords zid (concat_domain ["_minecraft._tcp", sub, s.zoneName])
          ("SRV"),
        DnsOp.createRecord zid (concat_domain ["_minecraft._tcp", sub, s.zoneName])
          ("SRV") ⟨host, port, 0, 0⟩]) := by
  simp only [update_record, h]

/-- C3: a reconciliation call lists the exact name with type SRV and then
issues exactly one update referencing the found record's identity (never a
create) when a record exists, or exactly one create when none does, always
writing target `host`, port `port`, priority 0, weight 0; and a second
call with identical arguments (an update following the first call's create
or update) leaves the remote state exactly as the first call left it. -/
theorem c3_update_record_reconcile (s : DnsState) (zid sub host : String)
    (port : Int) (hwf : s.WF) :
    (∀ r, firstMatch (concat_domain ["_minecraft._tcp", sub, s.zoneName])
        s.records = some r →
      (update_record s zid sub host port).2 =
        [DnsOp.getZone zid,
         DnsOp.listRecords zid
           (concat_domain ["_minecraft._tcp", sub, s.zoneName]) ("SRV"),
         DnsOp.updateRecord zid r.id
           (concat_domain ["_minecraft._tcp", sub, s.zoneName]) ("SRV")
           ⟨host, port, 0, 0⟩]) ∧
    (firstMatch (concat_domain ["_minecraft._tcp", sub, s.zoneName])
        s.records = none →
      (update_record s zid sub host port).2 =
        [DnsOp.getZone zid,
         DnsOp.listRecords zid
           (concat_domain ["_minecraft._tcp", sub, s.zoneName]) ("SRV"),
         DnsOp.createRecord zid
           (concat_domain ["_minecraft._tcp", sub, s.zoneName]) ("SRV")
           ⟨host, port, 0, 0⟩] ∧
      (update_record (update_record s zid sub host port).1 zid sub host port).2 =
        [DnsOp.getZone zid,
         DnsOp.listRecords zid
           (concat_domain ["_minecraft._tcp", sub, s.zoneName]) ("SRV"),
         DnsOp.updateRecord zid s.nextId
           (concat_domain ["_minecraft._tcp", sub, s.zoneName]) ("SRV")
           ⟨host, port, 0, 0⟩]) ∧
    (update_record (update_record s zid sub host port).1 zid sub host port).1 =
      (update_record s zid sub host port).1 := by
  rcases hfm : firstMatch (concat_domain ["_minecraft._tcp", sub, s.zoneName])
    s.records with _ | r
  · have h1 := update_record_missing s zid sub host port hfm
    have hfresh : applyUpdate
        (s.records ++
          [⟨s.nextId, concat_domain ["_minecraft._tcp", sub, s.zoneName], "SRV",
            ⟨host, port, 0, 0⟩⟩])
        s.nextId (concat_domain ["_minecraft._tcp", sub, s.zoneName])
        ⟨host, port, 0, 0⟩ =
        s.records ++
          [⟨s.nextId, concat_domain ["_minecraft._tcp", sub, s.zoneName], "SRV",
            ⟨host, port, 0, 0⟩⟩] := by
      have hold := applyUpdate_fresh s.records s.nextId
        (concat_domain ["_minecraft._tcp", sub, s.zoneName]) ⟨host, port, 0, 0⟩
        (fun q hq => Nat.ne_of_lt (hwf q hq))
      simp only [applyUpdate, List.map_append, List.map_cons, List.map_nil] at hold ⊢
      rw [hold]
      simp
    have hfm2 : firstMatch (concat_domain ["_minecraft._tcp", sub, s.zoneName])
        (s.records ++
          [⟨s.nextId, concat_domain ["_minecraft._tcp", sub, s.zoneName], "SRV",
            ⟨host, port, 0, 0⟩⟩]) =
        some ⟨s.nextId, concat_domain ["_minecraft._tcp", sub, s.zoneName], "SRV",
          ⟨host, port, 0, 0⟩⟩ := by
      rw [firstMatch_append_none _ _ _ hfm, if_pos (by simp [matchesSrv])]
    have h2 := update_record_found
      ({ s with
          records := s.records ++
            [⟨s.nextId, concat_domain ["_minecraft._tcp", sub, s.zoneName], "SRV",
              ⟨host, port, 0, 0⟩⟩],
          nextId := s.nextId + 1 })
      zid sub host port
      ⟨s.nextId, concat_domain ["_minecraft._tcp", sub, s.zoneName], "SRV",
        ⟨host, port, 0, 0⟩⟩ hfm2
    refine ⟨?_, ?_, ?_⟩
    · intro r hr
      exact Option.noConfusion hr
    · intro _
      constructor
      · rw [h1]
      · simp only [h1, h2]
    · simp only [h1, h2, hfresh]
  · have h1 := update_record_found s zid sub host port r hfm
    obtain ⟨r2, hfm2, hrid⟩ := firstMatch_applyUpdate
      (concat_domain ["_minecraft._tcp", sub, s.zoneName]) ⟨host, port, 0, 0⟩
      s.records r hfm
    have h2 := update_record_found
      ({ s with
          records :=
            applyUpdate s.records r.id
              (concat_domain ["_minecraft._tcp", sub, s.zoneName])
              ⟨host, port, 0, 0⟩ })
      zid sub host port r2 hfm2
    refine ⟨?_, ?_, ?_⟩
    · intro r' hr'
      have hrr : r = r' := by injection hr'
      subst hrr
      rw [h1]
    · intro hnone
      exact Option.noConfusion hnone
    · simp only [h1, h2, hrid, applyUpdate_idem]

/-- C3 witness: the reconciliation contract evaluated on an empty zone:
the first call creates, the second call updates the created record, and
the state after two identical calls equals the state after one. -/
theorem c3_update_record_reconcile_witness :
    (firstMatch (concat_domain ["_minecraft._tcp", "play", st0.zoneName])
        st0.records = none →
      (update_record st0 "zone0" "play" "a.example.com" 25565).2 =
        [DnsOp.getZone "zone0",
         DnsOp.listRecords "zone0"
           (concat_domain ["_minecraft._tcp", "play", st0.zoneName]) ("SRV"),
         DnsOp.createRecord "zone0"
           (concat_domain ["_minecraft._tcp", "play", st0.zoneName]) ("SRV")
           ⟨"a.example.com", 25565, 0, 0⟩] ∧
      (update_record (update_record st0 "zone0" "play" "a.example.com" 25565).1
          "zone0" "play" "a.example.com" 25565).2 =
        [DnsOp.getZone "zone0",
         DnsOp.listRecords "zone0"
           (concat_domain ["_minecraft._tcp", "play", st0.zoneName]) ("SRV"),
         DnsOp.updateRecord "zone0" st0.nextId
           (concat_domain ["_minecraft._tcp", "play", st0.zoneName]) ("SRV")
           ⟨"a.example.com", 25565, 0, 0⟩]) ∧
    (update_record (update_record st0 "zone0" "play" "a.example.com" 25565).1
        "zone0" "play" "a.example.com" 25565).1 =
      (update_record st0 "zone0" "play" "a.example.com" 25565).1 :=
  ⟨(c3_update_record_reconcile st0 ("zone0") ("play") ("a.example.com") 25565
      (by intro r hr; simp [st0] at hr)).2.1,
   (c3_update_record_reconcile st0 ("zone0") ("play") ("a.example.com") 25565
      (by intro r hr; simp [st0] at hr)).2.2⟩

/-- A node list containing an IP-literal host fails node validation. -/
theorem validate_nodes_error_of_ip (isIP : String → Bool) :
    ∀ l : List Node, (∃ n ∈ l, isIP n.host = true) →
      ∃ e, validate_nodes isIP l = .error e
  | [], h => by simp at h
  | n :: rest, h => by
    by_cases hip : isIP n.host = true
    · exact ⟨"IP address is not allowed for SRV record.",
        by simp [validate_nodes, validate_node, check_host, hip]⟩
    · obtain ⟨m, hm, hmi⟩ := h
      rcases List.mem_cons.mp hm with he | hm2
      · subst he
        exact absurd hmi hip
      · obtain ⟨e, herr⟩ := validate_nodes_error_of_ip isIP rest ⟨m, hm2, hmi⟩
        exact ⟨e, by simp [validate_nodes, validate_node, check_host, hip, herr]⟩

/-- A node list passing node validation has no IP-literal host. -/
theorem validate_nodes_ok_no_ip (isIP : String → Bool) :
    ∀ (l : List Node) (vs : List Node), validate_nodes isIP l = .ok vs →
      ∀ n ∈ l, isIP n.host = false
  | [], _, _ => by simp
  | n :: rest, vs, h => by
    by_cases hip : isIP n.host = true
    · simp [validate_nodes, validate_node, check_host, hip] at h
    · intro m hm
      simp only [validate_nodes, validate_node, check_host, if_neg hip] at h
      rcases List.mem_cons.mp hm with he | hm2
      · subst he
        simpa using hip
      · rcases hrest : validate_nodes isIP rest with e | vs2
        · rw [hrest] at h
          cases h
        · exact validate_nodes_ok_no_ip isIP rest vs2 hrest m hm2

/-- C9: validation fails the run before any probe or DNS call whenever a
node's host parses as an IP literal or two nodes share a subdomain, and a
configuration that passes validation has pairwise-distinct subdomains and
no IP-literal host. -/
theorem c9_validation_rejects (isIP : String → Bool) (cfg : Config)
    (probe : String → Int → ℚ → ProbeResult) (s : DnsState) :
    ((∃ n ∈ cfg.nodes, isIP n.host = true) →
      ∃ e, validate_config isIP cfg = .error e ∧
        run_full isIP cfg probe s = ⟨s, [], [], some e⟩) ∧
    (¬ (cfg.nodes.map Node.subdomain).Nodup →
      ∃ e, validate_config isIP cfg = .error e ∧
        run_full isIP cfg probe s = ⟨s, [], [], some e⟩) ∧
    (∀ cfg2, validate_config isIP cfg = .ok cfg2 →
      (cfg.nodes.map Node.subdomain).Nodup ∧ ∀ n ∈ cfg.nodes, isIP n.host = false) := by
  refine ⟨?_, ?_, ?_⟩
  · intro h
    obtain ⟨e, he⟩ := validate_nodes_error_of_ip isIP cfg.nodes h
    exact ⟨e, by simp [validate_config, he], by simp [run_full, validate_config, he]⟩
  · intro h
    rcases hvn : validate_nodes isIP cfg.nodes with e | vs
    · exact ⟨e, by simp [validate_config, hvn],
        by simp [run_full, validate_config, hvn]⟩
    · exact ⟨"conflict subdomains found.",
        by simp [validate_config, hvn, check_nodes, h],
        by simp [run_full, validate_config, hvn, check_nodes, h]⟩
  · intro cfg2 hok
    rcases hvn : validate_nodes isIP cfg.nodes with e | vs
    · simp [validate_config, hvn] at hok
    · constructor
      · by_cases hnd : (cfg.nodes.map Node.subdomain).Nodup
        · exact hnd
        · simp [validate_config, hvn, check_nodes, hnd] at hok
      · exact validate_nodes_ok_no_ip isIP cfg.nodes vs hvn

/-- The `ipaddress.ip_address` oracle restricted to the two literals the
spec names. -/
def isIPEx : String → Bool := fun s => s == "127.0.0.1" || s == "::1"

def nodeBad : Node := ⟨"c", "127.0.0.1", 25565, 7⟩

def cfgBad : Config := ⟨"token", "zone0", "play", [nodeA, nodeBad], 5⟩

/-- C9 witness: a configuration whose second node's host is the literal
"127.0.0.1" is rejected before any probe or DNS call. -/
theorem c9_validation_rejects_witness :
    ∃ e, validate_config isIPEx cfgBad = .error e ∧
      run_full isIPEx cfgBad probeFail st0 = ⟨st0, [], [], some e⟩ :=
  (c9_validation_rejects isIPEx cfgBad probeFail st0).1
    ⟨nodeBad, by simp [cfgBad], by simp [isIPEx, nodeBad]⟩

end McdnsUpdater
